import Mathlib

/-!
# Verification of the webmumble screen-share video codec

Shallow embedding of the capture-side frame encoder (`VideoCaptureService`,
`src/services/mumbleSocketService.ts`) and the playback-side reassembler
(`VideoPlaybackService`, `src/services/videoPlaybackService.ts`), together
with theorems settling the specification claims about them.

Modelling conventions:
* JS strings are modelled as `List Char` (`JStr`); base64 payloads are ASCII,
  so UTF-16 units coincide with characters.
* A JS `Map` is an insertion-ordered association list (`List (K × V)`) with
  pairwise-distinct keys; `Map.set` replaces in place or appends (`mset`),
  `Map.get` is `mget`, `Map.delete` is `mdelete`, `Map.size` is
  `List.length`.  A JS `Set` is an insertion-ordered duplicate-free list
  (`jsSetAdd`, `jsSetDelete`).
* JS number arithmetic on integers is exact (ids, sizes, timestamps are
  modelled as `Nat`/`Int`); the fractional computations in the source
  (scaling to max dimensions, the `* 0.5` tile-ratio test) are modelled by
  exact rationals, which agree with IEEE doubles on the ranges involved.
* The JPEG codec (`canvas.toDataURL`, `Image` decoding) is opaque: compressed
  payloads produced by the capture side are inputs of the capture tick, and
  drawing decoded images onto a canvas is recorded in a per-canvas draw log.
* Asynchronous `Image.onload` callbacks are modelled as explicit pending jobs
  fired by separate scheduler events, reflecting the browser event loop.
-/

abbrev JStr : Type := List Char

/-! ## JS `Map` as an insertion-ordered association list -/

section JsMap

variable {K V : Type} [DecidableEq K]

/-- `Map.get(k)`: the value of the first entry with key `k`. -/
def mget : List (K × V) → K → Option V
  | [], _ => none
  | (k', v) :: rest, k => if k = k' then some v else mget rest k

/-- `Map.set(k, v)`: replace the entry in place if the key is present
(JS maps keep the original insertion position), else append. -/
def mset : List (K × V) → K → V → List (K × V)
  | [], k, v => [(k, v)]
  | (k', v') :: rest, k, v =>
      if k' = k then (k, v) :: rest else (k', v') :: mset rest k v

/-- `Map.delete(k)`: remove the entry with key `k`. -/
def mdelete (m : List (K × V)) (k : K) : List (K × V) :=
  m.filter (fun kv => ¬ kv.1 = k)

/-- Keys are pairwise distinct (invariant of every JS `Map`). -/
def keysNodup (m : List (K × V)) : Prop :=
  (m.map Prod.fst).Nodup

theorem mget_eq_none_iff (m : List (K × V)) (k : K) :
    mget m k = none ↔ ∀ v, (k, v) ∉ m := by
  induction m with
  | nil => simp [mget]
  | cons kv rest ih =>
    obtain ⟨k', v'⟩ := kv
    by_cases h : k = k'
    · subst h
      simp only [mget, if_pos rfl]
      constructor
      · intro hc
        exact absurd hc (Option.some_ne_none _)
      · intro hall
        exact absurd (List.mem_cons_self (k, v') rest) (hall v')
    · simp only [mget, if_neg h, ih, List.mem_cons]
      constructor
      · intro hall v hv
        rcases hv with hv | hv
        · exact h (by simpa using congrArg Prod.fst hv)
        · exact hall v hv
      · intro hall v hv
        exact hall v (Or.inr hv)

theorem mget_mem (m : List (K × V)) (k : K) (v : V) (h : mget m k = some v) :
    (k, v) ∈ m := by
  induction m with
  | nil => simp [mget] at h
  | cons kv rest ih =>
    obtain ⟨k', v'⟩ := kv
    by_cases hk : k = k'
    · subst hk
      have h' : v' = v := by simpa [mget] using h
      simp [h']
    · simp only [mget, if_neg hk] at h
      exact List.mem_cons_of_mem _ (ih h)

theorem mget_mset_self (m : List (K × V)) (k : K) (v : V) :
    mget (mset m k v) k = some v := by
  induction m with
  | nil => simp [mset, mget]
  | cons kv rest ih =>
    obtain ⟨k', v'⟩ := kv
    by_cases h : k' = k
    · simp [mset, h, mget]
    · have hne : ¬ k = k' := fun hc => h hc.symm
      simp [mset, h, mget, hne, ih]

theorem mget_mset_ne (m : List (K × V)) (k k' : K) (v : V) (h : k' ≠ k) :
    mget (mset m k v) k' = mget m k' := by
  induction m with
  | nil => simp [mset, mget, h]
  | cons kv rest ih =>
    obtain ⟨ka, va⟩ := kv
    by_cases hka : ka = k
    · subst hka
      simp [mset, mget, h, fun hc => h hc]
    · by_cases hk' : k' = ka
      · subst hk'
        simp [mset, hka, mget]
      · simp [mset, hka, mget, hk', ih]

theorem mset_length_fresh (m : List (K × V)) (k : K) (v : V)
    (h : mget m k = none) : (mset m k v).length = m.length + 1 := by
  induction m with
  | nil => simp [mset]
  | cons kv rest ih =>
    obtain ⟨ka, va⟩ := kv
    by_cases hka : k = ka
    · simp [mget, hka] at h
    · have hka' : ¬ ka = k := fun hc => hka hc.symm
      simp only [mget, if_neg hka] at h
      simp [mset, hka', ih h]

theorem mset_length_stale (m : List (K × V)) (k : K) (v : V)
    (h : (mget m k).isSome) : (mset m k v).length = m.length := by
  induction m with
  | nil => simp [mget] at h
  | cons kv rest ih =>
    obtain ⟨ka, va⟩ := kv
    by_cases hka : ka = k
    · simp [mset, hka]
    · have hka' : ¬ k = ka := fun hc => hka hc.symm
      simp only [mget, if_neg hka'] at h
      simp [mset, hka, ih h]

theorem mset_mset_same (m : List (K × V)) (k : K) (v w : V) :
    mset (mset m k v) k w = mset m k w := by
  induction m with
  | nil => simp [mset]
  | cons kv rest ih =>
    obtain ⟨ka, va⟩ := kv
    by_cases hka : ka = k
    · simp [mset, hka]
    · simp [mset, hka, ih]

theorem mset_cons_self (m : List (K × V)) (k : K) (v w : V) :
    mset ((k, v) :: m) k w = (k, w) :: m := by
  simp [mset]

theorem mget_mdelete_self (m : List (K × V)) (k : K) :
    mget (mdelete m k) k = none := by
  rw [mget_eq_none_iff]
  intro v hv
  unfold mdelete at hv
  have := List.of_mem_filter hv
  simp at this

theorem mget_mdelete_ne (m : List (K × V)) (k k' : K) (h : k' ≠ k) :
    mget (mdelete m k) k' = mget m k' := by
  induction m with
  | nil => rfl
  | cons kv rest ih =>
    obtain ⟨ka, va⟩ := kv
    by_cases hka : ka = k
    · subst hka
      have h1 : mdelete ((ka, va) :: rest) ka = mdelete rest ka := by
        simp [mdelete]
      rw [h1, ih]
      simp [mget, h]
    · have h1 : mdelete ((ka, va) :: rest) k = (ka, va) :: mdelete rest k := by
        simp [mdelete, hka]
      rw [h1]
      by_cases hk' : k' = ka
      · subst hk'
        simp [mget]
      · simp [mget, hk', ih]

end JsMap

/-! ## JS `Set` as an insertion-ordered duplicate-free list -/

/-- `Set.add(x)`: append if absent. -/
def jsSetAdd {K : Type} [DecidableEq K] (s : List K) (x : K) : List K :=
  if x ∈ s then s else s ++ [x]

/-- `Set.delete(x)`: remove the element. -/
def jsSetDelete {K : Type} [DecidableEq K] (s : List K) (x : K) : List K :=
  s.filter (fun y => ¬ y = x)

theorem jsSetAdd_idem {K : Type} [DecidableEq K] (s : List K) (x : K) :
    jsSetAdd (jsSetAdd s x) x = jsSetAdd s x := by
  unfold jsSetAdd
  by_cases h : x ∈ s <;> simp [h]

/-! ## Payload fragmentation (`fragmentData`, `mumbleSocketService.ts` 849–855) -/

/-- The transport's per-message byte budget (`MAX_FRAGMENT_SIZE`). -/
def MAX_FRAGMENT_SIZE : Nat := 4800

/-- Split a list into consecutive chunks of `k` elements (last may be
short), mirroring `for (i = 0; i < len; i += k) push(slice(i, i + k))`.
Structural recursion on a fuel bound (any fuel ≥ length gives the loop's
result) keeps the definition kernel-reducible. -/
def chunkListFuel (k : Nat) : Nat → List Char → List (List Char)
  | _, [] => []
  | 0, _ :: _ => []
  | fuel + 1, c :: cs =>
      ((c :: cs).take k) :: chunkListFuel k fuel ((c :: cs).drop k)

theorem chunkListFuel_flatten (k : Nat) (hk : 0 < k) :
    ∀ n l fuel, l.length = n → l.length ≤ fuel →
      (chunkListFuel k fuel l).flatten = l := by
  intro n
  induction n using Nat.strong_induction_on with
  | _ n ih =>
    intro l fuel hn hfuel
    cases l with
    | nil => cases fuel <;> rfl
    | cons c cs =>
      cases fuel with
      | zero => simp at hfuel
      | succ f =>
        show ((c :: cs).take k :: chunkListFuel k f ((c :: cs).drop k)).flatten
          = c :: cs
        rw [List.flatten_cons,
          ih ((c :: cs).drop k).length ?_ _ f rfl ?_, List.take_append_drop]
        · subst hn
          simp only [List.length_drop, List.length_cons]
          omega
        · simp only [List.length_drop, List.length_cons] at hfuel ⊢
          omega

theorem chunkListFuel_len_le (k : Nat) (hk : 0 < k) :
    ∀ n l fuel, l.length = n → l.length ≤ fuel →
      ∀ c ∈ chunkListFuel k fuel l, c.length ≤ k := by
  intro n
  induction n using Nat.strong_induction_on with
  | _ n ih =>
    intro l fuel hn hfuel c hc
    cases l with
    | nil => cases fuel <;> simp [chunkListFuel] at hc
    | cons a cs =>
      cases fuel with
      | zero => simp at hfuel
      | succ f =>
        simp only [chunkListFuel, List.mem_cons] at hc
        rcases hc with rfl | hc
        · simp [List.length_take]
        · refine ih ((a :: cs).drop k).length ?_ _ f rfl ?_ c hc
          · subst hn
            simp only [List.length_drop, List.length_cons]
            omega
          · simp only [List.length_drop, List.length_cons] at hfuel ⊢
            omega

/-- `fragmentData` (capture side): chunk the base64 payload, with `[\'\']` for
an empty payload. -/
def fragmentData (base64Data : JStr) : List JStr :=
  let fragments := chunkListFuel MAX_FRAGMENT_SIZE base64Data.length base64Data
  if fragments.length > 0 then fragments else [[]]

theorem fragmentData_flatten (s : JStr) : (fragmentData s).flatten = s := by
  unfold fragmentData
  have hfl := chunkListFuel_flatten MAX_FRAGMENT_SIZE
    (by norm_num [MAX_FRAGMENT_SIZE]) s.length s s.length rfl le_rfl
  by_cases h : (chunkListFuel MAX_FRAGMENT_SIZE s.length s).length > 0
  · simpa [h] using hfl
  · have hempty : chunkListFuel MAX_FRAGMENT_SIZE s.length s = [] :=
      List.length_eq_zero.mp (by omega)
    rw [hempty] at hfl
    simp only [hempty, List.length_nil, gt_iff_lt, lt_self_iff_false, if_false]
    simpa using hfl.symm

theorem fragmentData_len_le (s : JStr) :
    ∀ c ∈ fragmentData s, c.length ≤ MAX_FRAGMENT_SIZE := by
  unfold fragmentData
  intro c hc
  by_cases h : (chunkListFuel MAX_FRAGMENT_SIZE s.length s).length > 0
  · simp only [h, if_pos] at hc
    exact chunkListFuel_len_le MAX_FRAGMENT_SIZE
      (by norm_num [MAX_FRAGMENT_SIZE]) s.length s s.length rfl le_rfl c hc
  · simp only [h, if_false] at hc
    simp only [List.mem_singleton] at hc
    subst hc
    simp [MAX_FRAGMENT_SIZE]

theorem fragmentData_ne_nil (s : JStr) : fragmentData s ≠ [] := by
  unfold fragmentData
  by_cases h : (chunkListFuel MAX_FRAGMENT_SIZE s.length s).length > 0
  · simp only [h, if_pos]
    intro hc
    rw [hc] at h
    simp at h
  · simp [h]

/-! ## Wire protocol (`src/types.ts`) -/

structure DeltaTile where
  x : Nat
  y : Nat
  data : JStr
deriving DecidableEq, Repr

structure VideoFrameMessage where
  userId : JStr
  frameId : Int
  fragmentIndex : Nat
  fragmentCount : Nat
  data : JStr
  timestamp : Int
  isKeyframe : Option Bool
  width : Option Nat
  height : Option Nat
  tiles : Option (List DeltaTile)
  deltaType : Option JStr
deriving DecidableEq, Repr

inductive VideoMessage where
  | announce (userId username : JStr) (streaming : Bool) (timestamp : Int)
  | start (userId username : JStr) (fps : Nat) (quality : ℚ) (timestamp : Int)
  | frame (msg : VideoFrameMessage)
  | stop (userId : JStr) (timestamp : Int)
  | subscribe (subscriberId subscriberName streamerId : JStr) (timestamp : Int)
  | unsubscribe (subscriberId streamerId : JStr) (timestamp : Int)
deriving DecidableEq, Repr

/-! ## Playback-side state (`VideoPlaybackService`) -/

structure VideoStream where
  userId : JStr
  username : JStr
  lastFrameTime : Int
  currentFrameUrl : Option JStr
  isActive : Bool
deriving DecidableEq, Repr

structure AvailableStream where
  userId : JStr
  username : JStr
  isSubscribed : Bool
deriving DecidableEq, Repr

structure FrameBuffer where
  fragments : List (Nat × JStr)
  totalFragments : Nat
  timestamp : Int
deriving DecidableEq, Repr

/-- One draw onto a canvas (the pixel content itself is opaque). -/
inductive DrawOp where
  | keyframe (frameId : Int)
  | tile (frameId : Int) (x y : Nat)
deriving DecidableEq, Repr

/-- An HTML canvas plus 2d context.  Assigning `width`/`height` clears the
bitmap, so the draw log restarts empty when dimensions are (re)assigned. -/
structure Canvas where
  width : Nat
  height : Nat
  log : List DrawOp
deriving DecidableEq, Repr

/-- Per-streamer decode state.  `gen` models JS object identity: pending
`Image.onload` callbacks close over the state object, so a late callback only
affects the service if the entry it captured is still the tracked one. -/
structure UserFrameState where
  lastCompletedFrameId : Int
  frameBuffers : List (Int × FrameBuffer)
  canvas : Option Canvas
  gen : Nat
deriving DecidableEq, Repr

/-- Pending keyframe `Image.onload` (registered by `drawKeyframeToCanvas`). -/
structure KfJob where
  userId : JStr
  gen : Nat
  frameId : Int
  fired : Bool
deriving DecidableEq, Repr

/-- The pending per-tile `Image.onload`s of one delta frame; the shared
`tilesApplied` counter is represented by the not-yet-fired tile indices. -/
structure TileJob where
  userId : JStr
  gen : Nat
  frameId : Int
  tiles : List DeltaTile
  remaining : List Nat
deriving DecidableEq, Repr

structure PState where
  streams : List (JStr × VideoStream)
  frameBuffers : List (JStr × FrameBuffer)   -- class field, written only by destroy()
  userFrameState : List (JStr × UserFrameState)
  availableStreams : List (JStr × AvailableStream)
  subscriptions : List JStr
  myUserId : JStr
  myUsername : JStr
  kfJobs : List KfJob
  tileJobs : List TileJob
  nextGen : Nat
deriving DecidableEq, Repr

/-- Observable effects of the playback service: the three callbacks, plus
markers for the moments a frame is recorded as fully applied. -/
inductive Eff where
  | streamUpdate (streams : List (JStr × VideoStream))
  | availUpdate (avail : List (JStr × AvailableStream))
  | sendSubscribe (msg : VideoMessage)
  | frameCompleted (userId : JStr) (frameId : Int) (payload : JStr)
  | deltaCompleted (userId : JStr) (frameId : Int)
deriving DecidableEq, Repr

def STREAM_TIMEOUT : Int := 10000
def FRAME_TIMEOUT : Int := 5000
def CLEANUP_INTERVAL_MS : Int := 2000

/-- JS truthiness fallback `msg.width || 480` (0 and undefined are falsy). -/
def jsOr (o : Option Nat) (d : Nat) : Nat :=
  match o with
  | some w => if w = 0 then d else w
  | none => d

/-- `existingStream?.username || 'Unknown'` (empty string is falsy). -/
def usernameOf (streams : List (JStr × VideoStream)) (userId : JStr) : JStr :=
  match mget streams userId with
  | some s => if s.username = [] then "Unknown".toList else s.username
  | none => "Unknown".toList

/-- Opaque stand-in for `canvas.toDataURL('image/jpeg', 0.9)`. -/
def canvasToDataURL (_c : Canvas) : JStr :=
  "data:image/jpeg;base64,[canvas]".toList

/-- `handleAnnounce` (videoPlaybackService.ts 87–106). -/
def handleAnnounce (st : PState) (userId username : JStr) (streaming : Bool) :
    PState × List Eff :=
  if userId = st.myUserId then (st, [])
  else if streaming then
    let avail := mset st.availableStreams userId
      ⟨userId, username, decide (userId ∈ st.subscriptions)⟩
    ({ st with availableStreams := avail }, [.availUpdate avail])
  else
    let avail := mdelete st.availableStreams userId
    let subs := jsSetDelete st.subscriptions userId
    let streams := mdelete st.streams userId
    ({ st with availableStreams := avail, subscriptions := subs, streams := streams },
     [.streamUpdate streams, .availUpdate avail])

/-- `handleVideoStart` (videoPlaybackService.ts 108–125). -/
def handleVideoStart (st : PState) (userId username : JStr) (now : Int) :
    PState × List Eff :=
  if userId = st.myUserId then (st, [])
  else
    let streams := mset st.streams userId ⟨userId, username, now, none, true⟩
    ({ st with streams := streams }, [.streamUpdate streams])

/-- `handleDeltaFrame` (videoPlaybackService.ts 199–231): the synchronous
part only registers one `Image.onload` per tile. -/
def handleDeltaFrame (st : PState) (msg : VideoFrameMessage) (state : UserFrameState) :
    PState × List Eff :=
  let tiles := msg.tiles.getD []
  if tiles = [] then (st, [])
  else if state.canvas = none then (st, [])        -- no keyframe yet: wait
  else if msg.frameId ≤ state.lastCompletedFrameId then (st, [])
  else
    ({ st with tileJobs := st.tileJobs ++
        [⟨msg.userId, state.gen, msg.frameId, tiles, List.range tiles.length⟩] }, [])

/-- Body of `handleVideoFrame` after the per-user state has been fetched or
created (videoPlaybackService.ts 143–197), including the synchronous part of
`drawKeyframeToCanvas` (233–275). -/
def handleVideoFrameWithState (st : PState) (msg : VideoFrameMessage) (now : Int)
    (state : UserFrameState) : PState × List Eff :=
  if msg.isKeyframe = some false ∧ msg.tiles.getD [] ≠ [] then
    handleDeltaFrame st msg state
  else if msg.frameId ≤ state.lastCompletedFrameId then (st, [])
  else
    let buffer0 := (mget state.frameBuffers msg.frameId).getD
      ⟨[], msg.fragmentCount, now⟩
    let buffer : FrameBuffer :=
      { buffer0 with fragments := mset buffer0.fragments msg.fragmentIndex msg.data }
    if buffer.fragments.length = buffer.totalFragments then
      let fragments := (List.range buffer.totalFragments).filterMap
        (fun i => mget buffer.fragments i)
      let fullBase64 := fragments.flatten
      let w := jsOr msg.width 480
      let h := jsOr msg.height 270
      -- drawKeyframeToCanvas: (re)create the canvas (assigning dims clears it),
      -- register the keyframe onload job, and synchronously publish the
      -- keyframe image url on the stream entry
      let state1 : UserFrameState := { state with canvas := some ⟨w, h, []⟩ }
      let imageUrl := "data:image/jpeg;base64,".toList ++ fullBase64
      let streams := mset st.streams msg.userId
        ⟨msg.userId, usernameOf st.streams msg.userId, now, some imageUrl, true⟩
      -- mark completed and drop all buffers with frameId ≤ msg.frameId
      let state2 : UserFrameState :=
        { state1 with
          lastCompletedFrameId := msg.frameId
          frameBuffers := (mset state.frameBuffers msg.frameId buffer).filter
            (fun p => ¬ p.1 ≤ msg.frameId) }
      ({ st with
          streams := streams
          userFrameState := mset st.userFrameState msg.userId state2
          kfJobs := st.kfJobs ++ [⟨msg.userId, state.gen, msg.frameId, false⟩] },
       [.streamUpdate streams, .frameCompleted msg.userId msg.frameId fullBase64])
    else
      let state1 : UserFrameState :=
        { state with frameBuffers := mset state.frameBuffers msg.frameId buffer }
      ({ st with userFrameState := mset st.userFrameState msg.userId state1 }, [])

/-- `handleVideoFrame` (videoPlaybackService.ts 127–197). -/
def handleVideoFrame (st : PState) (msg : VideoFrameMessage) (now : Int) :
    PState × List Eff :=
  if msg.userId = st.myUserId then (st, [])
  else
    match mget st.userFrameState msg.userId with
    | some state => handleVideoFrameWithState st msg now state
    | none =>
        let state : UserFrameState := ⟨-1, [], none, st.nextGen⟩
        handleVideoFrameWithState
          { st with
            userFrameState := mset st.userFrameState msg.userId state
            nextGen := st.nextGen + 1 } msg now state

/-- `handleVideoStop` (videoPlaybackService.ts 301–312). -/
def handleVideoStop (st : PState) (userId : JStr) : PState × List Eff :=
  let r1 : PState × List Eff :=
    match mget st.streams userId with
    | some _ =>
        let streams := mdelete st.streams userId
        ({ st with streams := streams }, [Eff.streamUpdate streams])
    | none => (st, [])
  let avail := mdelete r1.1.availableStreams userId
  let subs := jsSetDelete r1.1.subscriptions userId
  ({ r1.1 with availableStreams := avail, subscriptions := subs },
   r1.2 ++ [.availUpdate avail])

/-- `handleVideoMessage` (videoPlaybackService.ts 69–85): the switch only
dispatches the four viewer-side message kinds. -/
def handleVideoMessage (st : PState) (m : VideoMessage) (now : Int) :
    PState × List Eff :=
  match m with
  | .announce userId username streaming _ => handleAnnounce st userId username streaming
  | .start userId username _ _ _ => handleVideoStart st userId username now
  | .frame msg => handleVideoFrame st msg now
  | .stop userId _ => handleVideoStop st userId
  | .subscribe _ _ _ _ => (st, [])
  | .unsubscribe _ _ _ => (st, [])

/-- `cleanup` (videoPlaybackService.ts 382–402): drop fragment buffers older
than `FRAME_TIMEOUT`, then drop streams (and their frame state) with no frame
for more than `STREAM_TIMEOUT`.  It invokes no callbacks. -/
def cleanup (st : PState) (now : Int) : PState :=
  let ufs := st.userFrameState.map (fun p =>
    (p.1, { p.2 with frameBuffers :=
      p.2.frameBuffers.filter (fun b => ¬ now - b.2.timestamp > FRAME_TIMEOUT) }))
  let dead := (st.streams.filter
    (fun p => now - p.2.lastFrameTime > STREAM_TIMEOUT)).map Prod.fst
  { st with
    streams := st.streams.filter (fun p => ¬ now - p.2.lastFrameTime > STREAM_TIMEOUT)
    userFrameState := ufs.filter (fun p => ¬ p.1 ∈ dead) }

/-- Firing the keyframe `Image.onload` registered by `drawKeyframeToCanvas`:
draw at (0,0) on the captured state object's canvas, then
`updateStreamFromCanvas` (videoPlaybackService.ts 249–254, 277–299). -/
def applyKfLoad (st : PState) (jobId : Nat) (now : Int) : PState × List Eff :=
  match st.kfJobs.get? jobId with
  | none => (st, [])
  | some job =>
    if job.fired then (st, [])
    else
      let st1 := { st with kfJobs := st.kfJobs.set jobId { job with fired := true } }
      match mget st1.userFrameState job.userId with
      | some state =>
        if state.gen = job.gen then
          match state.canvas with
          | some cv =>
            let cv1 : Canvas := { cv with log := cv.log ++ [.keyframe job.frameId] }
            let state1 := { state with canvas := some cv1 }
            let streams := mset st1.streams job.userId
              ⟨job.userId, usernameOf st1.streams job.userId, now,
               some (canvasToDataURL cv1), true⟩
            ({ st1 with
                streams := streams
                userFrameState := mset st1.userFrameState job.userId state1 },
             [.streamUpdate streams])
          | none => (st1, [])
        else (st1, [])   -- captured object no longer tracked: invisible mutation
      | none => (st1, [])

/-- Firing one tile's `Image.onload` (videoPlaybackService.ts 215–230): draw
the tile at its offset, bump the shared `tilesApplied` counter, and when it
reaches the tile count run `updateStreamFromCanvas` and set
`lastCompletedFrameId := msg.frameId` — with no staleness re-check. -/
def applyTileLoad (st : PState) (jobId tileIdx : Nat) (now : Int) : PState × List Eff :=
  match st.tileJobs.get? jobId with
  | none => (st, [])
  | some job =>
    if tileIdx ∈ job.remaining then
      let job1 : TileJob := { job with remaining := job.remaining.filter (fun i => ¬ i = tileIdx) }
      let st1 := { st with tileJobs := st.tileJobs.set jobId job1 }
      match mget st1.userFrameState job.userId with
      | some state =>
        if state.gen = job.gen then
          match state.canvas with
          | some cv =>
            let t := job.tiles.getD tileIdx ⟨0, 0, []⟩
            let cv1 : Canvas := { cv with log := cv.log ++ [.tile job.frameId t.x t.y] }
            let state1 := { state with canvas := some cv1 }
            if job1.remaining = [] then
              let streams := mset st1.streams job.userId
                ⟨job.userId, usernameOf st1.streams job.userId, now,
                 some (canvasToDataURL cv1), true⟩
              let state2 := { state1 with lastCompletedFrameId := job.frameId }
              ({ st1 with
                  streams := streams
                  userFrameState := mset st1.userFrameState job.userId state2 },
               [.streamUpdate streams, .deltaCompleted job.userId job.frameId])
            else
              ({ st1 with userFrameState := mset st1.userFrameState job.userId state1 }, [])
          | none => (st1, [])
        else (st1, [])   -- captured object no longer tracked: invisible mutation
      | none => (st1, [])
    else (st, [])

/-- One browser event-loop step: an inbound message, a pending image decode
completing, or the periodic cleanup sweep. -/
inductive PEvent where
  | vmsg (m : VideoMessage) (now : Int)
  | kfLoad (jobId : Nat) (now : Int)
  | tileLoad (jobId tileIdx : Nat) (now : Int)
  | sweep (now : Int)
deriving DecidableEq, Repr

def pstep (st : PState) (e : PEvent) : PState × List Eff :=
  match e with
  | .vmsg m now => handleVideoMessage st m now
  | .kfLoad j now => applyKfLoad st j now
  | .tileLoad j i now => applyTileLoad st j i now
  | .sweep now => (cleanup st now, [])

def prun (st : PState) (es : List PEvent) : PState × List Eff :=
  match es with
  | [] => (st, [])
  | e :: rest =>
      let r1 := pstep st e
      let r2 := prun r1.1 rest
      (r2.1, r1.2 ++ r2.2)

/-- Frame ids recorded as fully applied for streamer `u`, in order. -/
def appliedIds (u : JStr) (effs : List Eff) : List Int :=
  effs.filterMap (fun e =>
    match e with
    | .frameCompleted u' f _ => if u' = u then some f else none
    | .deltaCompleted u' f => if u' = u then some f else none
    | _ => none)

/-- Completed keyframes `(streamer, frameId, reassembled payload)`. -/
def completions (effs : List Eff) : List (JStr × Int × JStr) :=
  effs.filterMap (fun e =>
    match e with
    | .frameCompleted u f p => some (u, f, p)
    | _ => none)

/-! ## Capture-side encoder (`VideoCaptureService`, mumbleSocketService.ts) -/

def TILE_SIZE : Nat := 32
def KEYFRAME_INTERVAL : Nat := 30
def TILE_CHANGE_THRESHOLD : Nat := 50
def ANNOUNCE_INTERVAL_MS : Int := 5000

/-- `getImageData` result: flat RGBA bytes of the scaled capture; the pixel
content is the opaque output of `drawImage`, supplied as a function. -/
structure ImageData where
  width : Nat
  height : Nat
  data : Nat → Nat

structure VideoCaptureConfig where
  fps : Nat
  quality : ℚ
  maxWidth : Nat
  maxHeight : Nat
deriving DecidableEq, Repr

def DEFAULT_CONFIG : VideoCaptureConfig := ⟨2, 3/10, 480, 270⟩

structure CState where
  config : VideoCaptureConfig
  frameId : Nat
  isCapturing : Bool
  userId : JStr
  username : JStr
  previousImageData : Option ImageData
  framesSinceKeyframe : Nat
  subscribers : List JStr
  hasMedia : Bool        -- videoElement, canvas and ctx are all non-null

/-- Inputs of one capture tick that come from the outside world: the video
element's dimensions, the drawn pixels, and the opaque JPEG codec outputs. -/
structure TickInput where
  videoWidth : Nat
  videoHeight : Nat
  captured : Nat → Nat           -- getImageData bytes (opaque resample)
  frameJpeg : JStr               -- base64 of canvas.toDataURL (opaque codec)
  tileJpeg : Nat → Nat → JStr    -- base64 of each tile's toDataURL (opaque codec)
  now : Int

inductive CEff where
  | sendChannel (m : VideoMessage)
  | sendDirect (m : VideoMessage) (targets : List JStr)
  | subscribersChange (subs : List JStr)
deriving DecidableEq, Repr

def absDiff (a b : Nat) : Nat := if a ≥ b then a - b else b - a

/-- Inner loop of `tileChanged` (mumbleSocketService.ts 820–847): accumulate
summed absolute RGB differences over the tile's pixels, returning early as
soon as the running sum exceeds the threshold. -/
def tileChangedAux (cur prev : Nat → Nat) (stride threshold : Nat) :
    List (Nat × Nat) → Nat → Bool
  | [], _ => false
  | p :: rest, diff =>
      let idx := (p.2 * stride + p.1) * 4
      let diff := diff + absDiff (cur idx) (prev idx)
        + absDiff (cur (idx + 1)) (prev (idx + 1))
        + absDiff (cur (idx + 2)) (prev (idx + 2))
      if diff > threshold then true
      else tileChangedAux cur prev stride threshold rest diff

/-- `tileChanged`: pixels are visited row by row, `(tileX+x, tileY+y)`. -/
def tileChanged (current previous : ImageData)
    (tileX tileY tileW tileH stride : Nat) : Bool :=
  let threshold := TILE_CHANGE_THRESHOLD * tileW * tileH
  let pts := (List.range tileH).flatMap (fun y =>
    (List.range tileW).map (fun x => (tileX + x, tileY + y)))
  tileChangedAux current.data previous.data stride threshold pts 0

/-- The tile-comparison double loop of `sendDeltaFrame` (747–772): `ty` outer,
`tx` inner, pushing a `DeltaTile` with the tile's compressed payload for every
changed tile. -/
def computeChangedTiles (current previous : ImageData) (width height : Nat)
    (tileJpeg : Nat → Nat → JStr) : List DeltaTile :=
  let tilesX := (width + TILE_SIZE - 1) / TILE_SIZE    -- Math.ceil(width / TILE_SIZE)
  let tilesY := (height + TILE_SIZE - 1) / TILE_SIZE
  (List.range tilesY).flatMap (fun ty =>
    (List.range tilesX).filterMap (fun tx =>
      let tileX := tx * TILE_SIZE
      let tileY := ty * TILE_SIZE
      let tileW := min TILE_SIZE (width - tileX)
      let tileH := min TILE_SIZE (height - tileY)
      if tileChanged current previous tileX tileY tileW tileH width
      then some ⟨tileX, tileY, tileJpeg tileX tileY⟩ else none))

def hexDigit (n : Nat) : Char :=
  if n < 10 then Char.ofNat (48 + n) else Char.ofNat (87 + n)

/-- `JSON.stringify` string escaping. -/
def jsonEscapeChar (c : Char) : List Char :=
  if c = '"' then ['\\', '"']
  else if c = '\\' then ['\\', '\\']
  else if c = Char.ofNat 8 then ['\\', 'b']
  else if c = Char.ofNat 9 then ['\\', 't']
  else if c = Char.ofNat 10 then ['\\', 'n']
  else if c = Char.ofNat 12 then ['\\', 'f']
  else if c = Char.ofNat 13 then ['\\', 'r']
  else if c.toNat < 32 then
    ['\\', 'u', '0', '0', hexDigit (c.toNat / 16), hexDigit (c.toNat % 16)]
  else [c]

def jsonEscape (s : JStr) : JStr := s.flatMap jsonEscapeChar

def stringifyTile (t : DeltaTile) : JStr :=
  "\x7b\"x\":".toList ++ (toString t.x).toList ++ ",\"y\":".toList
    ++ (toString t.y).toList ++ ",\"data\":\"".toList ++ jsonEscape t.data
    ++ "\"\x7d".toList

def stringifyTiles (ts : List DeltaTile) : JStr :=
  '[' :: (List.intercalate [','] (ts.map stringifyTile)) ++ [']']

/-- `JSON.stringify(frameMsg)` for the delta message, fields in the
object-literal order of `sendDeltaFrame` (792–805). -/
def stringifyDeltaMsg (userId : JStr) (frameId : Nat) (timestamp : Int)
    (width height : Nat) (tiles : List DeltaTile) : JStr :=
  "\x7b\"_wm_video\":true,\"type\":\"video_frame\",\"userId\":\"".toList
    ++ jsonEscape userId
    ++ "\",\"frameId\":".toList ++ (toString frameId).toList
    ++ ",\"fragmentIndex\":0,\"fragmentCount\":1,\"data\":\"\",\"timestamp\":".toList
    ++ (toString timestamp).toList
    ++ ",\"isKeyframe\":false,\"width\":".toList ++ (toString width).toList
    ++ ",\"height\":".toList ++ (toString height).toList
    ++ ",\"tiles\":".toList ++ stringifyTiles tiles
    ++ "\x7d".toList

/-- `Math.round` (floor of x + 1/2) for the non-negative values involved. -/
def jsRound (q : ℚ) : Nat := (Int.floor (q + 1/2)).toNat

/-- The scale-to-fit steps of `captureFrame` (656–669); JS doubles are
modelled by exact rationals. -/
def scaleDims (vw vh maxW maxH : Nat) : Nat × Nat :=
  let p1 : ℚ × ℚ :=
    if (vw : ℚ) > (maxW : ℚ) then ((maxW : ℚ), (vh : ℚ) / (vw : ℚ) * (maxW : ℚ))
    else ((vw : ℚ), (vh : ℚ))
  let p2 : ℚ × ℚ :=
    if p1.2 > (maxH : ℚ) then (p1.1 / p1.2 * (maxH : ℚ), (maxH : ℚ))
    else p1
  (jsRound p2.1, jsRound p2.2)

def mkKeyframeMsg (userId : JStr) (frameId : Nat) (i total : Nat) (d : JStr)
    (w h : Nat) (now : Int) : VideoFrameMessage :=
  ⟨userId, (frameId : Int), i, total, d, now, some true, some w, some h, none, none⟩

/-- `sendKeyframe` (702–725): fragment the compressed frame and unicast one
`video_frame` per fragment. -/
def sendKeyframe (userId : JStr) (frameId : Nat) (w h : Nat)
    (targetIds : List JStr) (frameJpeg : JStr) (now : Int) : List CEff :=
  let fragments := fragmentData frameJpeg
  (List.range fragments.length).map (fun i =>
    .sendDirect (.frame (mkKeyframeMsg userId frameId i fragments.length
      (fragments.getD i []) w h now)) targetIds)

/-- `sendDeltaFrame` (727–818).  `totalSize` in the source is only logged and
is omitted. -/
def sendDeltaFrame (s : CState) (frameId : Nat) (width height : Nat)
    (currentImageData : ImageData) (targetIds : List JStr)
    (tileJpeg : Nat → Nat → JStr) (frameJpeg : JStr) (now : Int) :
    CState × List CEff :=
  match s.previousImageData with
  | none => (s, [])
  | some previous =>
    let tilesX := (width + TILE_SIZE - 1) / TILE_SIZE
    let tilesY := (height + TILE_SIZE - 1) / TILE_SIZE
    let changedTiles := computeChangedTiles currentImageData previous width height tileJpeg
    if changedTiles.length = 0 then (s, [])
    else if (changedTiles.length : ℚ) > ((tilesX * tilesY : Nat) : ℚ) * (1/2) then
      ({ s with framesSinceKeyframe := 0 },
       sendKeyframe s.userId frameId width height targetIds frameJpeg now)
    else
      let frameMsg : VideoFrameMessage :=
        ⟨s.userId, (frameId : Int), 0, 1, [], now, some false, some width, some height,
         some changedTiles, none⟩
      let msgJson := stringifyDeltaMsg s.userId frameId now width height changedTiles
      if msgJson.length > MAX_FRAGMENT_SIZE then
        ({ s with framesSinceKeyframe := 0 },
         sendKeyframe s.userId frameId width height targetIds frameJpeg now)
      else
        (s, [.sendDirect (.frame frameMsg) targetIds])

/-- `captureFrame` (641–700).  Note the tick epilogue increments
`framesSinceKeyframe` after `sendDeltaFrame` returns, even when the latter
reset it to 0 on a keyframe fallback. -/
def captureFrame (s : CState) (inp : TickInput) : CState × List CEff :=
  if ¬ s.isCapturing ∨ ¬ s.hasMedia ∨ s.subscribers.length = 0 then (s, [])
  else
    let wh := scaleDims inp.videoWidth inp.videoHeight s.config.maxWidth s.config.maxHeight
    let width := wh.1
    let height := wh.2
    let currentImageData : ImageData := ⟨width, height, inp.captured⟩
    let needsKeyframe : Bool :=
      decide (s.framesSinceKeyframe ≥ KEYFRAME_INTERVAL) ||
      (match s.previousImageData with
       | none => true
       | some p => decide (p.width ≠ width) || decide (p.height ≠ height))
    let currentFrameId := s.frameId
    let s1 := { s with frameId := s.frameId + 1 }
    let targetIds := s.subscribers
    if needsKeyframe then
      ({ s1 with
          framesSinceKeyframe := 0
          previousImageData := some currentImageData },
       sendKeyframe s1.userId currentFrameId width height targetIds inp.frameJpeg inp.now)
    else
      let r := sendDeltaFrame s1 currentFrameId width height currentImageData targetIds
        inp.tileJpeg inp.frameJpeg inp.now
      ({ r.1 with
          framesSinceKeyframe := r.1.framesSinceKeyframe + 1
          previousImageData := some currentImageData }, r.2)

/-- `handleSubscribe` (574–597): adds the sender to the subscriber set and
always replies with a `video_start` (no membership check). -/
def handleSubscribe (s : CState) (subscriberId streamerId : JStr) (now : Int) :
    CState × List CEff :=
  if ¬ streamerId = s.userId then (s, [])
  else
    let subscribers := jsSetAdd s.subscribers subscriberId
    ({ s with subscribers := subscribers },
     [.subscribersChange subscribers,
      .sendDirect (.start s.userId s.username s.config.fps s.config.quality now)
        [subscriberId]])

/-- `handleUnsubscribe` (600–605). -/
def handleUnsubscribe (s : CState) (subscriberId streamerId : JStr) :
    CState × List CEff :=
  if ¬ streamerId = s.userId then (s, [])
  else
    let subscribers := jsSetDelete s.subscribers subscriberId
    ({ s with subscribers := subscribers }, [.subscribersChange subscribers])

/-- Number of `video_start` messages among the emitted effects. -/
def countVideoStart (effs : List CEff) : Nat :=
  (effs.filter (fun e =>
    match e with
    | .sendDirect (.start _ _ _ _ _) _ => true
    | _ => false)).length

/-! ## Additional map/filter lemmas used by the claim proofs -/

theorem jsSetDelete_not_mem {K : Type} [DecidableEq K] (s : List K) (x : K) :
    ¬ x ∈ jsSetDelete s x := by
  intro h
  have := List.of_mem_filter h
  simp at this

theorem mget_filter_none_of_none {K V : Type} [DecidableEq K]
    (m : List (K × V)) (k : K) (P : K × V → Bool)
    (h : mget m k = none) : mget (m.filter (fun p => P p)) k = none := by
  rw [mget_eq_none_iff] at h ⊢
  intro v hv
  exact h v (List.mem_of_mem_filter hv)

theorem mget_eq_none_of_not_mem_keys {K V : Type} [DecidableEq K]
    (m : List (K × V)) (k : K) (h : ¬ k ∈ m.map Prod.fst) : mget m k = none := by
  rw [mget_eq_none_iff]
  intro v hv
  exact h (List.mem_map.mpr ⟨(k, v), hv, rfl⟩)

theorem mget_filter_none {K V : Type} [DecidableEq K]
    (m : List (K × V)) (k : K) (v : V) (P : K × V → Bool)
    (hnd : keysNodup m) (hget : mget m k = some v) (hP : P (k, v) = false) :
    mget (m.filter (fun p => P p)) k = none := by
  induction m with
  | nil => simp [mget] at hget
  | cons kv rest ih =>
    obtain ⟨ka, va⟩ := kv
    unfold keysNodup at hnd
    simp only [List.map_cons, List.nodup_cons] at hnd
    by_cases hk : k = ka
    · subst hk
      have hv : va = v := by simpa [mget] using hget
      subst hv
      have hrest : mget rest k = none :=
        mget_eq_none_of_not_mem_keys rest k hnd.1
      simp only [List.filter_cons, hP]
      exact mget_filter_none_of_none rest k P hrest
    · simp only [mget, if_neg hk] at hget
      have := ih hnd.2 hget
      simp only [List.filter_cons]
      cases hpa : P (ka, va)
      · simpa using this
      · simpa [mget, if_neg hk] using this

theorem mget_filter_key_none {K V : Type} [DecidableEq K]
    (m : List (K × V)) (k : K) (P : K × V → Bool) (hP : ∀ v, P (k, v) = false) :
    mget (m.filter (fun p => P p)) k = none := by
  rw [mget_eq_none_iff]
  intro v hv
  have h1 := List.of_mem_filter hv
  rw [hP v] at h1
  exact absurd h1 (by simp)

/-! ## Claim C9 -/

/-- C9: on a capture tick with an empty subscriber set the tick is a no-op:
no message is emitted and the whole encoder state — `frameId`,
`framesSinceKeyframe`, `previousImageData` included — is unchanged. -/
theorem C9_empty_subscribers_noop (s : CState) (inp : TickInput)
    (h : s.subscribers = []) : captureFrame s inp = (s, []) := by
  unfold captureFrame
  rw [if_pos]
  right; right
  simp [h]

def c9State : CState :=
  ⟨DEFAULT_CONFIG, 4, true, "s".toList, "S".toList, none, 2, [], true⟩

def c9Input : TickInput :=
  ⟨64, 64, fun _ => 0, "KF".toList, fun _ _ => "T".toList, 1000⟩

/-- Witness for C9 at a concrete capturing state with no subscribers. -/
theorem C9_witness : captureFrame c9State c9Input = (c9State, []) :=
  C9_empty_subscribers_noop c9State c9Input rfl

/-! ## Claim C10 -/

/-- Does the message carry the playback service's own user id (for the three
kinds whose handlers check it)? -/
def isOwnLoopback (st : PState) (m : VideoMessage) : Bool :=
  match m with
  | .announce userId _ _ _ => userId = st.myUserId
  | .start userId _ _ _ _ => userId = st.myUserId
  | .frame msg => msg.userId = st.myUserId
  | _ => false

/-- C10: a `video_announce`, `video_start` or `video_frame` whose userId is
the service's own id leaves the whole playback state unchanged and invokes no
callback. -/
theorem C10_own_messages_ignored (st : PState) (m : VideoMessage) (now : Int)
    (h : isOwnLoopback st m = true) : handleVideoMessage st m now = (st, []) := by
  cases m with
  | announce userId username streaming ts =>
      simp only [isOwnLoopback, decide_eq_true_eq] at h
      simp [handleVideoMessage, handleAnnounce, h]
  | start userId username fps q ts =>
      simp only [isOwnLoopback, decide_eq_true_eq] at h
      simp [handleVideoMessage, handleVideoStart, h]
  | frame msg =>
      simp only [isOwnLoopback, decide_eq_true_eq] at h
      simp [handleVideoMessage, handleVideoFrame, h]
  | stop userId ts => simp [isOwnLoopback] at h
  | subscribe a b c d => simp [isOwnLoopback] at h
  | unsubscribe a b c => simp [isOwnLoopback] at h

def c10State : PState :=
  ⟨[("u".toList, ⟨"u".toList, "U".toList, 0, none, true⟩)], [],
   [("u".toList, ⟨3, [], some ⟨480, 270, []⟩, 0⟩)],
   [("u".toList, ⟨"u".toList, "U".toList, false⟩)],
   [], "me".toList, "Me".toList, [], [], 1⟩

/-- Witness for C10: a loopback `video_frame` from "me" changes nothing. -/
theorem C10_witness :
    isOwnLoopback c10State (.frame ⟨"me".toList, 9, 0, 1, "d".toList, 5,
        some true, some 64, some 64, none, none⟩) = true ∧
    handleVideoMessage c10State (.frame ⟨"me".toList, 9, 0, 1, "d".toList, 5,
        some true, some 64, some 64, none, none⟩) 5 = (c10State, []) :=
  ⟨by decide, C10_own_messages_ignored c10State _ 5 (by decide)⟩

/-! ## Claim C7 -/

/-- C7: a delta `video_frame` for a streamer whose decode state has no canvas
(no keyframe decoded yet) is dropped: the playback state — including the
per-streamer frame state — is completely unchanged, no tile decode is even
started, and no callback fires; the service keeps waiting for a keyframe. -/
theorem C7_delta_without_keyframe_dropped (st : PState) (msg : VideoFrameMessage)
    (now : Int) (state : UserFrameState)
    (hown : ¬ msg.userId = st.myUserId)
    (hstate : mget st.userFrameState msg.userId = some state)
    (hcanvas : state.canvas = none)
    (hkf : msg.isKeyframe = some false)
    (htiles : ¬ msg.tiles.getD [] = []) :
    handleVideoFrame st msg now = (st, []) := by
  unfold handleVideoFrame
  rw [if_neg hown, hstate]
  show handleVideoFrameWithState st msg now state = (st, [])
  unfold handleVideoFrameWithState
  rw [if_pos ⟨hkf, htiles⟩]
  simp only [handleDeltaFrame]
  rw [if_neg htiles, if_pos hcanvas]

def c7State : PState :=
  ⟨[], [], [("u".toList, ⟨-1, [], none, 0⟩)], [], [], [], [], [], [], 1⟩

def c7Msg : VideoFrameMessage :=
  ⟨"u".toList, 5, 0, 1, [], 7, some false, some 64, some 64,
   some [⟨32, 0, "TILE".toList⟩], none⟩

/-- Witness for C7: delta frame id 5 with one tile at (32,0) against a
viewer with no prior keyframe for that streamer is dropped. -/
theorem C7_witness : handleVideoFrame c7State c7Msg 7 = (c7State, []) :=
  C7_delta_without_keyframe_dropped c7State c7Msg 7 ⟨-1, [], none, 0⟩
    (by decide) (by decide) rfl rfl (by decide)

/-! ## Claim C4 -/

/-- C4 (amended): calling `handleSubscribe` twice with the same subscriber id
is idempotent on the subscriber set (no double-increment), but every call —
including the repeat — sends one `video_start` to the subscriber, so the two
calls send two `video_start` messages in total. -/
theorem C4_amended_double_subscribe (s : CState) (subscriberId : JStr) (t1 t2 : Int) :
    (handleSubscribe (handleSubscribe s subscriberId s.userId t1).1
        subscriberId s.userId t2).1.subscribers
      = (handleSubscribe s subscriberId s.userId t1).1.subscribers ∧
    countVideoStart (handleSubscribe s subscriberId s.userId t1).2 = 1 ∧
    countVideoStart (handleSubscribe (handleSubscribe s subscriberId s.userId t1).1
        subscriberId s.userId t2).2 = 1 := by
  refine ⟨?_, ?_, ?_⟩
  · simp [handleSubscribe, jsSetAdd_idem, countVideoStart]
  · simp [handleSubscribe, countVideoStart]
  · simp [handleSubscribe, countVideoStart]

def c4State : CState :=
  ⟨DEFAULT_CONFIG, 0, true, "s".toList, "S".toList, none, 0, [], true⟩

/-- C4 counterexample: two identical subscribes addressed to this streamer
send two `video_start` messages in total, not one. -/
theorem C4_counterexample :
    countVideoStart ((handleSubscribe c4State "v".toList "s".toList 1).2
      ++ (handleSubscribe (handleSubscribe c4State "v".toList "s".toList 1).1
            "v".toList "s".toList 2).2) = 2 ∧
    ¬ countVideoStart ((handleSubscribe c4State "v".toList "s".toList 1).2
      ++ (handleSubscribe (handleSubscribe c4State "v".toList "s".toList 1).1
            "v".toList "s".toList 2).2) = 1 := by
  constructor <;> decide

/-! ## Claim C5 -/

/-- C5 (amended): a `video_announce` with `streaming=false` removes the
streamer's available-stream entry, its subscription and its active stream
entry (firing the two update callbacks), but the per-streamer decode state —
raster surface, fragment buffers and last-completed frame id — is retained,
as are any pending decode jobs. -/
theorem C5_amended_announce_false (st : PState) (userId username : JStr)
    (ts now : Int) (h : ¬ userId = st.myUserId) :
    handleVideoMessage st (.announce userId username false ts) now =
      ({ st with
          availableStreams := mdelete st.availableStreams userId
          subscriptions := jsSetDelete st.subscriptions userId
          streams := mdelete st.streams userId },
       [.streamUpdate (mdelete st.streams userId),
        .availUpdate (mdelete st.availableStreams userId)]) := by
  simp [handleVideoMessage, handleAnnounce, h]

def c5Ufs : UserFrameState :=
  ⟨7, [(5, ⟨[(0, "A".toList)], 2, 100⟩)], some ⟨480, 270, []⟩, 0⟩

def c5State : PState :=
  ⟨[("u".toList, ⟨"u".toList, "U".toList, 100, none, true⟩)], [],
   [("u".toList, c5Ufs)],
   [("u".toList, ⟨"u".toList, "U".toList, true⟩)],
   ["u".toList], [], [], [], [], 1⟩

/-- C5 counterexample: after `video_announce{streaming:false}` for streamer
"u", the raster surface, the fragment buffer for frame 5 and the last-applied
frame id 7 are all still held for "u" — they are not dropped. -/
theorem C5_counterexample :
    mget (handleVideoMessage c5State
        (.announce "u".toList "U".toList false 200) 200).1.userFrameState
      "u".toList = some c5Ufs ∧
    ¬ mget (handleVideoMessage c5State
        (.announce "u".toList "U".toList false 200) 200).1.userFrameState
      "u".toList = none := by
  constructor <;> decide

/-- Witness for the amended C5 at the concrete populated state. -/
theorem C5_amended_witness :
    handleVideoMessage c5State (.announce "u".toList "U".toList false 200) 200 =
      ({ c5State with
          availableStreams := mdelete c5State.availableStreams "u".toList
          subscriptions := jsSetDelete c5State.subscriptions "u".toList
          streams := mdelete c5State.streams "u".toList },
       [.streamUpdate (mdelete c5State.streams "u".toList),
        .availUpdate (mdelete c5State.availableStreams "u".toList)]) :=
  C5_amended_announce_false c5State "u".toList "U".toList 200 200 (by decide)

/-! ## Claim C6 -/

/-- C6 (amended): a cleanup sweep at time `now` removes every active stream
with no frame for more than `STREAM_TIMEOUT` (10s) from the active streams
map together with its per-streamer frame state, and discards every fragment
buffer older than `FRAME_TIMEOUT` (5s); the available-streams (discoverable)
map is not touched by the sweep. -/
theorem C6_amended_cleanup (st : PState) (now : Int) (u : JStr)
    (stream : VideoStream)
    (hnd : keysNodup st.streams)
    (hget : mget st.streams u = some stream)
    (htimeout : now - stream.lastFrameTime > STREAM_TIMEOUT) :
    mget (cleanup st now).streams u = none ∧
    mget (cleanup st now).userFrameState u = none ∧
    (cleanup st now).availableStreams = st.availableStreams ∧
    ∀ p ∈ (cleanup st now).userFrameState, ∀ b ∈ p.2.frameBuffers,
      ¬ now - b.2.timestamp > FRAME_TIMEOUT := by
  refine ⟨?_, ?_, rfl, ?_⟩
  · exact mget_filter_none st.streams u stream _ hnd hget (by simp [htimeout])
  · apply mget_filter_key_none
    intro v
    have hdead : u ∈ ((st.streams.filter
        (fun p => now - p.2.lastFrameTime > STREAM_TIMEOUT)).map Prod.fst) := by
      refine List.mem_map.mpr ⟨(u, stream), ?_, rfl⟩
      refine List.mem_filter.mpr ⟨mget_mem _ _ _ hget, by simp [htimeout]⟩
    simp [hdead]
  · intro p hp b hb
    simp only [cleanup] at hp
    obtain ⟨hp1, _⟩ := List.mem_filter.mp hp
    obtain ⟨q, hq, hpq⟩ := List.mem_map.mp hp1
    rw [← hpq] at hb
    simp only at hb
    have := (List.mem_filter.mp hb).2
    simpa using this

def c6State : PState :=
  ⟨[("u".toList, ⟨"u".toList, "U".toList, 0, none, true⟩)], [],
   [("u".toList, ⟨3, [(4, ⟨[(0, "A".toList)], 2, 0⟩)], some ⟨480, 270, []⟩, 0⟩)],
   [("u".toList, ⟨"u".toList, "U".toList, true⟩)],
   [], [], [], [], [], 1⟩

/-- C6 counterexample: after 10.1s of silence the sweep removes the stream
from the active streams map but the streamer is still present in the
available-streams map — it is not removed from the available-streams list. -/
theorem C6_counterexample :
    mget (cleanup c6State 10100).streams "u".toList = none ∧
    mget (cleanup c6State 10100).availableStreams "u".toList =
      some ⟨"u".toList, "U".toList, true⟩ ∧
    ¬ mget (cleanup c6State 10100).availableStreams "u".toList = none := by
  refine ⟨by decide, by decide, by decide⟩

/-- Witness for the amended C6 at the concrete timed-out stream. -/
theorem C6_amended_witness :
    mget (cleanup c6State 10100).streams "u".toList = none ∧
    mget (cleanup c6State 10100).userFrameState "u".toList = none ∧
    (cleanup c6State 10100).availableStreams = c6State.availableStreams :=
  have h := C6_amended_cleanup c6State 10100 "u".toList
    ⟨"u".toList, "U".toList, 0, none, true⟩
    (by unfold keysNodup; decide) (by decide) (by decide)
  ⟨h.1, h.2.1, h.2.2.1⟩

/-! ## Claim C8 -/

/-- Scaled frame dimensions computed by a capture tick. -/
def tickDims (s : CState) (inp : TickInput) : Nat × Nat :=
  scaleDims inp.videoWidth inp.videoHeight s.config.maxWidth s.config.maxHeight

/-- The `ImageData` snapshot a capture tick works on. -/
def tickImage (s : CState) (inp : TickInput) : ImageData :=
  ⟨(tickDims s inp).1, (tickDims s inp).2, inp.captured⟩

/-- C8: a capture tick on the delta path (keyframe not forced) that
classifies zero tiles as changed transmits no message at all. -/
theorem C8_zero_changed_tiles_no_message (s : CState) (inp : TickInput)
    (prev : ImageData)
    (hcap : s.isCapturing = true) (hmedia : s.hasMedia = true)
    (hsubs : ¬ s.subscribers.length = 0)
    (hprev : s.previousImageData = some prev)
    (hcnt : s.framesSinceKeyframe < KEYFRAME_INTERVAL)
    (hw : prev.width = (tickDims s inp).1)
    (hh : prev.height = (tickDims s inp).2)
    (hchanged : computeChangedTiles (tickImage s inp) prev
        (tickDims s inp).1 (tickDims s inp).2 inp.tileJpeg = []) :
    (captureFrame s inp).2 = [] := by
  simp only [tickDims, tickImage] at hw hh hchanged
  have hguard : ¬ (¬ s.isCapturing = true ∨ ¬ s.hasMedia = true ∨
      s.subscribers.length = 0) := by
    simp [hcap, hmedia, hsubs]
  have hge : ¬ KEYFRAME_INTERVAL ≤ s.framesSinceKeyframe := by omega
  simp only [captureFrame, if_neg hguard, hprev, ge_iff_le,
    decide_eq_false hge, hw, hh, sendDeltaFrame, hchanged, tickDims]
  simp [sendDeltaFrame, hprev, hchanged]

/-- `Math.round` of a whole number is itself. -/
theorem jsRound_natCast (n : Nat) : jsRound (n : ℚ) = n := by
  unfold jsRound
  have h : Int.floor ((n : ℚ) + 1/2) = (n : Int) := by
    rw [Int.floor_eq_iff]
    constructor
    · push_cast
      linarith
    · push_cast
      linarith
  rw [h]
  simp

/-- Scaling is the identity when the source already fits the bounds. -/
theorem scaleDims_id (vw vh maxW maxH : Nat) (h1 : vw ≤ maxW) (h2 : vh ≤ maxH) :
    scaleDims vw vh maxW maxH = (vw, vh) := by
  have hc1 : ¬ ((vw : ℚ) > (maxW : ℚ)) := by
    simp only [gt_iff_lt, not_lt]
    exact_mod_cast h1
  have hc2 : ¬ ((vh : ℚ) > (maxH : ℚ)) := by
    simp only [gt_iff_lt, not_lt]
    exact_mod_cast h2
  simp only [scaleDims, if_neg hc1, if_neg hc2, jsRound_natCast]

def c8State : CState :=
  ⟨DEFAULT_CONFIG, 3, true, "s".toList, "S".toList,
   some ⟨1, 1, fun _ => 0⟩, 1, ["v".toList], true⟩

def c8Input : TickInput :=
  ⟨1, 1, fun _ => 0, "KF".toList, fun _ _ => "T".toList, 1000⟩

theorem c8Dims : tickDims c8State c8Input = (1, 1) := by
  show scaleDims 1 1 480 270 = (1, 1)
  exact scaleDims_id 1 1 480 270 (by norm_num) (by norm_num)

/-- Witness for C8: two identical 1×1 frames in a row yield a delta tick with
zero changed tiles and no transmitted message. -/
theorem C8_witness : (captureFrame c8State c8Input).2 = [] :=
  C8_zero_changed_tiles_no_message c8State c8Input ⟨1, 1, fun _ => 0⟩
    rfl rfl (by decide) rfl (by decide)
    (by rw [c8Dims])
    (by rw [c8Dims])
    (by simp only [tickImage, c8Dims]; decide)

/-! ## Claim C3 -/

/-- `sendDeltaFrame` on its two fallback conditions (more than half the grid
changed, or serialized message over budget) sends the keyframe fragments and
resets its own `framesSinceKeyframe` to 0. -/
theorem sendDeltaFrame_fallback (s : CState) (frameId width height : Nat)
    (cur : ImageData) (targets : List JStr) (tileJpeg : Nat → Nat → JStr)
    (frameJpeg : JStr) (now : Int) (prev : ImageData)
    (hprev : s.previousImageData = some prev)
    (hne : ¬ (computeChangedTiles cur prev width height tileJpeg).length = 0)
    (hcond : ((computeChangedTiles cur prev width height tileJpeg).length : ℚ) >
        (((width + TILE_SIZE - 1) / TILE_SIZE *
          ((height + TILE_SIZE - 1) / TILE_SIZE) : Nat) : ℚ) * (1/2) ∨
      (stringifyDeltaMsg s.userId frameId now width height
        (computeChangedTiles cur prev width height tileJpeg)).length
        > MAX_FRAGMENT_SIZE) :
    sendDeltaFrame s frameId width height cur targets tileJpeg frameJpeg now =
      ({ s with framesSinceKeyframe := 0 },
       sendKeyframe s.userId frameId width height targets frameJpeg now) := by
  by_cases hhalf : ((computeChangedTiles cur prev width height tileJpeg).length : ℚ) >
      (((width + TILE_SIZE - 1) / TILE_SIZE *
        ((height + TILE_SIZE - 1) / TILE_SIZE) : Nat) : ℚ) * (1/2)
  · simp only [sendDeltaFrame, hprev]
    rw [if_neg hne, if_pos hhalf]
  · have hsize := hcond.resolve_left hhalf
    simp only [sendDeltaFrame, hprev]
    rw [if_neg hne, if_neg hhalf, if_pos hsize]

/-- C3 (amended): on a delta-path tick whose computed delta covers more than
half the tile grid or whose serialized message exceeds the 4800-byte budget,
the keyframe fragments are sent instead of the delta — but the tick epilogue
increments the counter that `sendDeltaFrame` just reset, so
`framesSinceKeyframe` equals 1 (not 0) once the tick has finished. -/
theorem C3_fallback_sends_keyframe (s : CState) (inp : TickInput)
    (prev : ImageData)
    (hcap : s.isCapturing = true) (hmedia : s.hasMedia = true)
    (hsubs : ¬ s.subscribers.length = 0)
    (hprev : s.previousImageData = some prev)
    (hcnt : s.framesSinceKeyframe < KEYFRAME_INTERVAL)
    (hw : prev.width = (tickDims s inp).1)
    (hh : prev.height = (tickDims s inp).2)
    (hne : ¬ (computeChangedTiles (tickImage s inp) prev
        (tickDims s inp).1 (tickDims s inp).2 inp.tileJpeg).length = 0)
    (hcond : ((computeChangedTiles (tickImage s inp) prev
          (tickDims s inp).1 (tickDims s inp).2 inp.tileJpeg).length : ℚ) >
        ((((tickDims s inp).1 + TILE_SIZE - 1) / TILE_SIZE *
          (((tickDims s inp).2 + TILE_SIZE - 1) / TILE_SIZE) : Nat) : ℚ) * (1/2) ∨
      (stringifyDeltaMsg s.userId s.frameId inp.now
          (tickDims s inp).1 (tickDims s inp).2
          (computeChangedTiles (tickImage s inp) prev
            (tickDims s inp).1 (tickDims s inp).2 inp.tileJpeg)).length
        > MAX_FRAGMENT_SIZE) :
    (captureFrame s inp).2 = sendKeyframe s.userId s.frameId
        (tickDims s inp).1 (tickDims s inp).2 s.subscribers inp.frameJpeg inp.now ∧
    (captureFrame s inp).1.framesSinceKeyframe = 1 := by
  simp only [tickDims, tickImage] at hw hh hne hcond
  have hguard : ¬ (¬ s.isCapturing = true ∨ ¬ s.hasMedia = true ∨
      s.subscribers.length = 0) := by
    simp [hcap, hmedia, hsubs]
  have hge : ¬ KEYFRAME_INTERVAL ≤ s.framesSinceKeyframe := by omega
  have hsd := sendDeltaFrame_fallback
    { s with frameId := s.frameId + 1 } s.frameId
    (scaleDims inp.videoWidth inp.videoHeight s.config.maxWidth s.config.maxHeight).1
    (scaleDims inp.videoWidth inp.videoHeight s.config.maxWidth s.config.maxHeight).2
    ⟨(scaleDims inp.videoWidth inp.videoHeight s.config.maxWidth s.config.maxHeight).1,
     (scaleDims inp.videoWidth inp.videoHeight s.config.maxWidth s.config.maxHeight).2,
     inp.captured⟩
    s.subscribers inp.tileJpeg inp.frameJpeg inp.now prev hprev hne hcond
  rw [hprev] at hsd
  constructor <;>
    simp only [captureFrame, if_neg hguard, hprev, ge_iff_le,
      decide_eq_false hge, hw, hh, tickDims, hsd] <;>
    simp

def c3State : CState :=
  ⟨DEFAULT_CONFIG, 5, true, "s".toList, "S".toList,
   some ⟨1, 1, fun _ => 0⟩, 1, ["v".toList], true⟩

def c3Input : TickInput :=
  ⟨1, 1, fun _ => 255, "KF".toList, fun _ _ => "T".toList, 1000⟩

theorem c3Dims : tickDims c3State c3Input = (1, 1) := by
  show scaleDims 1 1 480 270 = (1, 1)
  exact scaleDims_id 1 1 480 270 (by norm_num) (by norm_num)

theorem c3Changed : computeChangedTiles (tickImage c3State c3Input)
    ⟨1, 1, fun _ => 0⟩ (tickDims c3State c3Input).1 (tickDims c3State c3Input).2
    c3Input.tileJpeg = [⟨0, 0, "T".toList⟩] := by
  simp only [tickImage, c3Dims]
  decide

/-- C3 counterexample: on a concrete delta tick whose single (changed) tile
covers 100% > 50% of the grid, a keyframe is sent instead of the delta, but
`framesSinceKeyframe` is 1, not 0, once the tick has finished. -/
theorem C3_counterexample :
    (captureFrame c3State c3Input).1.framesSinceKeyframe = 1 ∧
    ¬ (captureFrame c3State c3Input).1.framesSinceKeyframe = 0 ∧
    (captureFrame c3State c3Input).2 =
      [.sendDirect (.frame (mkKeyframeMsg "s".toList 5 0 1 "KF".toList 1 1 1000))
        ["v".toList]] := by
  have c3Dims' : scaleDims c3Input.videoWidth c3Input.videoHeight
      c3State.config.maxWidth c3State.config.maxHeight = (1, 1) := c3Dims
  have hlen : computeChangedTiles ⟨1, 1, c3Input.captured⟩ ⟨1, 1, fun _ => 0⟩
      1 1 c3Input.tileJpeg = [⟨0, 0, "T".toList⟩] := by decide
  have hne : ¬ (computeChangedTiles ⟨1, 1, c3Input.captured⟩ ⟨1, 1, fun _ => 0⟩
      1 1 c3Input.tileJpeg).length = 0 := by
    rw [hlen]
    decide
  have hcond := Or.inl
    (a := ((computeChangedTiles ⟨1, 1, c3Input.captured⟩ ⟨1, 1, fun _ => 0⟩
        1 1 c3Input.tileJpeg).length : ℚ) >
      (((1 + TILE_SIZE - 1) / TILE_SIZE *
        ((1 + TILE_SIZE - 1) / TILE_SIZE) : Nat) : ℚ) * (1/2))
    (b := (stringifyDeltaMsg c3State.userId c3State.frameId c3Input.now 1 1
        (computeChangedTiles ⟨1, 1, c3Input.captured⟩ ⟨1, 1, fun _ => 0⟩
          1 1 c3Input.tileJpeg)).length > MAX_FRAGMENT_SIZE)
    (by rw [hlen]; norm_num [TILE_SIZE])
  have hguard : ¬ (¬ c3State.isCapturing = true ∨ ¬ c3State.hasMedia = true ∨
      c3State.subscribers.length = 0) := by decide
  have hge : ¬ KEYFRAME_INTERVAL ≤ c3State.framesSinceKeyframe := by decide
  have hprev : c3State.previousImageData = some ⟨1, 1, fun _ => 0⟩ := rfl
  have hsd := sendDeltaFrame_fallback
    ⟨c3State.config, c3State.frameId + 1, c3State.isCapturing, c3State.userId,
     c3State.username, some ⟨1, 1, fun _ => 0⟩, c3State.framesSinceKeyframe,
     c3State.subscribers, c3State.hasMedia⟩ c3State.frameId 1 1
    ⟨1, 1, c3Input.captured⟩ c3State.subscribers c3Input.tileJpeg
    c3Input.frameJpeg c3Input.now ⟨1, 1, fun _ => 0⟩ rfl hne hcond
  refine ⟨?_, ?_, ?_⟩ <;>
    simp only [captureFrame, if_neg hguard, hprev, ge_iff_le,
      decide_eq_false hge, c3Dims', hsd] <;>
    simp [c3State, c3Input, DEFAULT_CONFIG] <;>
    decide

/-- Witness for the amended C3 at the same concrete tick. -/
theorem C3_witness :
    (captureFrame c3State c3Input).2 = sendKeyframe "s".toList 5 1 1 ["v".toList]
      "KF".toList 1000 ∧
    (captureFrame c3State c3Input).1.framesSinceKeyframe = 1 := by
  have h := C3_fallback_sends_keyframe c3State c3Input ⟨1, 1, fun _ => 0⟩ rfl rfl
    (by decide) rfl (by decide) (by rw [c3Dims]) (by rw [c3Dims])
    (by rw [c3Changed]; decide)
    (Or.inl (by rw [c3Changed, c3Dims]; norm_num [TILE_SIZE]))
  rw [c3Dims] at h
  exact h

/-! ## Claim C1 -/

def c1U : JStr := "u".toList

def c1Kf (fid : Int) (d : JStr) : VideoFrameMessage :=
  ⟨c1U, fid, 0, 1, d, 10, some true, some 32, some 32, none, none⟩

def c1Delta : VideoFrameMessage :=
  ⟨c1U, 2, 0, 1, [], 10, some false, some 32, some 32,
   some [⟨0, 0, "DT".toList⟩], none⟩

def c1Init : PState := ⟨[], [], [], [], [], [], [], [], [], 0⟩

/-- Keyframe 1 arrives and completes; delta 2 arrives and starts its tile
decode; keyframe 3 arrives and completes; then delta 2's tile decode
finishes late. -/
def c1Trace : List PEvent :=
  [.vmsg (.frame (c1Kf 1 "K1".toList)) 10,
   .vmsg (.frame c1Delta) 11,
   .vmsg (.frame (c1Kf 3 "K3".toList)) 12,
   .tileLoad 0 0 13]

/-- C1: the claimed invariant — frame ids applied to a streamer's raster
surface are strictly increasing even when delta tiles decode out of order
relative to later frames — fails on the code: in this trace the playback
service applies frames in the order 1, 3, 2.  The late `Image.onload` of
delta 2's tile draws onto the surface after keyframe 3 was applied and moves
`lastCompletedFrameId` back from 3 to 2, because the callback re-checks no
staleness. -/
theorem C1_stale_delta_applied_after_newer_keyframe :
    appliedIds c1U (prun c1Init c1Trace).2 = [1, 3, 2] ∧
    ¬ List.Chain' (fun a b => a < b) (appliedIds c1U (prun c1Init c1Trace).2) ∧
    (mget (prun c1Init c1Trace).1.userFrameState c1U).map
      UserFrameState.lastCompletedFrameId = some 2 := by
  refine ⟨by decide, ?_, by decide⟩
  rw [show appliedIds c1U (prun c1Init c1Trace).2 = [1, 3, 2] from by decide]
  intro hch
  rw [List.chain'_cons, List.chain'_cons] at hch
  exact absurd hch.2.1 (by decide)

/-! ## Claim C2 -/

/-- The `i`-th keyframe fragment message produced by `sendKeyframe` for a
payload split into `total` fragments. -/
def mkFragMsg (u : JStr) (f w h : Nat) (t : Int) (total i : Nat)
    (d : JStr) : VideoFrameMessage :=
  ⟨u, (f : Int), i, total, d, t, some true, some w, some h, none, none⟩

/-- The `N` fragment messages of payload `s`, in index order. -/
def canonFragMsgs (u : JStr) (f w h : Nat) (t : Int) (s : JStr) :
    List VideoFrameMessage :=
  (List.range (fragmentData s).length).map
    (fun i => mkFragMsg u f w h t (fragmentData s).length i
      ((fragmentData s).getD i []))

def fragEvents (ms : List VideoFrameMessage) (t : Int) : List PEvent :=
  ms.map (fun m => .vmsg (.frame m) t)

/-- Playback state while the keyframe's fragments are accumulating: the
streamer `u` has a fresh decode state whose only buffer is frame `f`'s. -/
def fragAccumState (s0 : PState) (u : JStr) (f : Nat) (t : Int) (total : Nat)
    (frags : List (Nat × JStr)) : PState :=
  { s0 with
    userFrameState := mset s0.userFrameState u
      ⟨-1, [((f : Int), ⟨frags, total, t⟩)], none, s0.nextGen⟩
    nextGen := s0.nextGen + 1 }

/-- The fragment map holds exactly the chunks with indices in `J`. -/
def goodFrags (s : JStr) (frags : List (Nat × JStr)) (J : List Nat) : Prop :=
  frags.length = J.length ∧
  ∀ i : Nat, mget frags i =
    if i ∈ J then some ((fragmentData s).getD i []) else none

theorem goodFrags_nil (s : JStr) : goodFrags s [] [] := by
  refine ⟨rfl, fun i => ?_⟩
  simp [mget]

theorem goodFrags_snoc (s : JStr) (frags : List (Nat × JStr)) (J : List Nat)
    (j : Nat) (hg : goodFrags s frags J) (hj : j ∉ J) :
    goodFrags s (mset frags j ((fragmentData s).getD j [])) (J ++ [j]) := by
  obtain ⟨hlen, hget⟩ := hg
  have hfresh : mget frags j = none := by
    rw [hget j, if_neg hj]
  constructor
  · rw [mset_length_fresh frags j _ hfresh, hlen]
    simp
  · intro i
    by_cases hij : i = j
    · subst hij
      rw [mget_mset_self]
      simp
    · rw [mget_mset_ne frags j i _ hij, hget i]
      by_cases hiJ : i ∈ J <;> simp [hiJ, hij]

/-- Processing the first fragment from a state with no entry for `u` is the
same as from the accumulating state with an empty buffer: both create the
buffer with `totalFragments := fragmentCount` and timestamp `t`. -/
theorem frag_first_eq_accum (s0 : PState) (u : JStr) (f w h : Nat) (t : Int)
    (N j : Nat) (d : JStr)
    (hme : ¬ u = s0.myUserId) (h0 : mget s0.userFrameState u = none) :
    handleVideoFrame s0 (mkFragMsg u f w h t N j d) t =
      handleVideoFrame (fragAccumState s0 u f t N []) (mkFragMsg u f w h t N j d) t := by
  have hstale : ¬ ((f : Int) ≤ -1) := by omega
  simp only [handleVideoFrame, mkFragMsg, fragAccumState, h0, mget_mset_self,
    handleVideoFrameWithState, handleDeltaFrame]
  rw [if_neg hme, if_neg hme]
  simp only [Option.getD_some, Option.getD_none, mget, if_pos rfl,
    mset_mset_same, hstale, if_false]
  simp [mset]

/-- One more fragment arrives, with the frame still incomplete afterwards:
the buffer gains the chunk and nothing is emitted. -/
theorem frag_step_mid (s0 : PState) (u : JStr) (f w h : Nat) (t : Int)
    (N j : Nat) (d : JStr) (frags : List (Nat × JStr))
    (hme : ¬ u = s0.myUserId)
    (hfresh : mget frags j = none)
    (hlen : ¬ frags.length + 1 = N) :
    handleVideoFrame (fragAccumState s0 u f t N frags)
        (mkFragMsg u f w h t N j d) t =
      (fragAccumState s0 u f t N (mset frags j d), []) := by
  have hstale : ¬ ((f : Int) ≤ -1) := by omega
  simp only [handleVideoFrame, mkFragMsg, fragAccumState, mget_mset_self,
    handleVideoFrameWithState, handleDeltaFrame]
  rw [if_neg hme]
  simp only [Option.getD_some, Option.getD_none, mget, if_pos rfl,
    mset_mset_same, hstale, if_false]
  simp [mset_cons_self, mset_length_fresh frags j d hfresh, hlen]

/-- The last fragment arrives: the frame completes and is published once,
with the payload reassembled in fragment-index order. -/
theorem frag_step_last (s0 : PState) (u : JStr) (f w h : Nat) (t : Int)
    (N j : Nat) (d : JStr) (frags : List (Nat × JStr))
    (hme : ¬ u = s0.myUserId)
    (hfresh : mget frags j = none)
    (hlen : frags.length + 1 = N) :
    completions (handleVideoFrame (fragAccumState s0 u f t N frags)
        (mkFragMsg u f w h t N j d) t).2 =
      [(u, (f : Int),
        ((List.range N).filterMap (fun i => mget (mset frags j d) i)).flatten)] := by
  have hstale : ¬ ((f : Int) ≤ -1) := by omega
  simp only [handleVideoFrame, mkFragMsg, fragAccumState, mget_mset_self,
    handleVideoFrameWithState, handleDeltaFrame]
  rw [if_neg hme]
  simp only [Option.getD_some, Option.getD_none, mget, if_pos rfl,
    mset_mset_same, hstale, if_false]
  simp [mset_cons_self, mset_length_fresh frags j d hfresh, hlen, completions]

theorem prun_cons (st : PState) (e : PEvent) (rest : List PEvent) :
    prun st (e :: rest) =
      ((prun (pstep st e).1 rest).1, (pstep st e).2 ++ (prun (pstep st e).1 rest).2) := by
  simp [prun]

theorem prun_append (st : PState) (es1 es2 : List PEvent) :
    prun st (es1 ++ es2) =
      ((prun (prun st es1).1 es2).1,
       (prun st es1).2 ++ (prun (prun st es1).1 es2).2) := by
  induction es1 generalizing st with
  | nil => simp [prun]
  | cons e rest ih =>
    simp only [List.cons_append, prun_cons, ih]
    simp [prun_cons]

/-- Folding a list of fresh fragment arrivals (not enough to complete) over
the accumulating state: nothing is emitted and the buffer ends up holding
exactly the chunks indexed by the old and the new indices together. -/
theorem frag_fold_go (s0 : PState) (u : JStr) (f w h : Nat) (t : Int) (s : JStr)
    (hme : ¬ u = s0.myUserId) :
    ∀ (I : List Nat) (frags : List (Nat × JStr)) (J : List Nat),
      I.Nodup → (∀ i ∈ I, i ∉ J) →
      goodFrags s frags J → J.length + I.length < (fragmentData s).length →
      ∃ frags' : List (Nat × JStr),
        prun (fragAccumState s0 u f t (fragmentData s).length frags)
          (fragEvents (I.map (fun i => mkFragMsg u f w h t
            (fragmentData s).length i ((fragmentData s).getD i []))) t) =
          (fragAccumState s0 u f t (fragmentData s).length frags', []) ∧
        goodFrags s frags' (J ++ I) := by
  intro I
  induction I with
  | nil =>
    intro frags J _ _ hg _
    exact ⟨frags, by simp [prun], by simpa using hg⟩
  | cons j I' ih =>
    intro frags J hnd hdisj hg hlen
    have hfresh : mget frags j = none := by
      rw [hg.2 j, if_neg (hdisj j (List.mem_cons_self j I'))]
    have hnotfull : ¬ frags.length + 1 = (fragmentData s).length := by
      have := hg.1
      simp only [List.length_cons] at hlen
      omega
    have hstep := frag_step_mid s0 u f w h t (fragmentData s).length j
      ((fragmentData s).getD j []) frags hme hfresh hnotfull
    simp only [List.map_cons, fragEvents, List.map_cons, prun_cons, pstep,
      handleVideoMessage, hstep]
    have hg' := goodFrags_snoc s frags J j hg
      (fun hc => hdisj j (List.mem_cons_self j I') hc)
    obtain ⟨frags', hrun, hgood⟩ := ih (mset frags j ((fragmentData s).getD j []))
      (J ++ [j])
      (List.Nodup.of_cons hnd)
      (fun i hi => by
        intro hc
        rcases List.mem_append.mp hc with hc1 | hc1
        · exact hdisj i (List.mem_cons_of_mem j hi) hc1
        · rcases List.mem_singleton.mp hc1 with rfl
          exact (List.nodup_cons.mp hnd).1 hi)
      hg'
      (by
        simp only [List.length_append, List.length_singleton, List.length_cons,
          List.length_nil] at hlen ⊢
        omega)
    refine ⟨frags', ?_, ?_⟩
    · rw [show fragEvents (I'.map (fun i => mkFragMsg u f w h t
          (fragmentData s).length i ((fragmentData s).getD i []))) t
          = (I'.map (fun i => mkFragMsg u f w h t (fragmentData s).length i
            ((fragmentData s).getD i []))).map (fun m => PEvent.vmsg (.frame m) t)
          from rfl] at hrun
      simpa [fragEvents] using hrun
    · simpa [List.append_assoc] using hgood

theorem nodup_lt_full (J : List Nat) (N : Nat) (hnd : J.Nodup)
    (hlt : ∀ i ∈ J, i < N) (hlen : J.length = N) : ∀ i, i < N → i ∈ J := by
  intro i hi
  by_contra hmem
  have hsub : J.toFinset ⊆ (Finset.range N).erase i := by
    intro a ha
    rw [List.mem_toFinset] at ha
    exact Finset.mem_erase.mpr
      ⟨fun hc => hmem (hc ▸ ha), Finset.mem_range.mpr (hlt a ha)⟩
  have hcard := Finset.card_le_card hsub
  rw [List.toFinset_card_of_nodup hnd, hlen,
    Finset.card_erase_of_mem (Finset.mem_range.mpr hi), Finset.card_range] at hcard
  omega

theorem filterMap_mget_all (frags : List (Nat × JStr)) (g : Nat → JStr)
    (l : List Nat) (hall : ∀ i ∈ l, mget frags i = some (g i)) :
    l.filterMap (fun i => mget frags i) = l.map g := by
  induction l with
  | nil => simp
  | cons a l ih =>
    simp only [List.filterMap_cons, hall a (List.mem_cons_self a l), List.map_cons]
    rw [ih (fun i hi => hall i (List.mem_cons_of_mem a hi))]

theorem range_map_getD (l : List JStr) :
    (List.range l.length).map (fun i => l.getD i []) = l := by
  induction l with
  | nil => simp
  | cons a l ih =>
    rw [List.length_cons, List.range_succ_eq_map, List.map_cons, List.map_map]
    have hfun : ((fun i => (a :: l).getD i []) ∘ Nat.succ) = (fun i => l.getD i []) := by
      funext i
      simp
    rw [hfun, ih]
    simp

/-- Reassembling from a buffer that holds every chunk yields the payload. -/
theorem frag_payload_eq (s : JStr) (m : List (Nat × JStr))
    (hall : ∀ i, i < (fragmentData s).length →
      mget m i = some ((fragmentData s).getD i [])) :
    ((List.range (fragmentData s).length).filterMap (fun i => mget m i)).flatten
      = s := by
  rw [filterMap_mget_all m (fun i => (fragmentData s).getD i []) _
    (fun i hi => hall i (List.mem_range.mp hi))]
  rw [range_map_getD (fragmentData s), fragmentData_flatten]

theorem canonFragMsgs_nodup (u : JStr) (f w h : Nat) (t : Int) (s : JStr) :
    (canonFragMsgs u f w h t s).Nodup := by
  refine List.Nodup.map ?_ (List.nodup_range _)
  intro a b hab
  exact congrArg VideoFrameMessage.fragmentIndex hab

theorem mem_canonFragMsgs (u : JStr) (f w h : Nat) (t : Int) (s : JStr)
    (x : VideoFrameMessage) (hx : x ∈ canonFragMsgs u f w h t s) :
    x.fragmentIndex < (fragmentData s).length ∧
    x = mkFragMsg u f w h t (fragmentData s).length x.fragmentIndex
      ((fragmentData s).getD x.fragmentIndex []) := by
  obtain ⟨i, hi, rfl⟩ := List.mem_map.mp hx
  rw [List.mem_range] at hi
  exact ⟨hi, rfl⟩

theorem frag_list_eq_map_idx (u : JStr) (f w h : Nat) (t : Int) (s : JStr)
    (ms : List VideoFrameMessage)
    (hms : ∀ x ∈ ms, x ∈ canonFragMsgs u f w h t s) :
    ms = (ms.map VideoFrameMessage.fragmentIndex).map
      (fun i => mkFragMsg u f w h t (fragmentData s).length i
        ((fragmentData s).getD i [])) := by
  rw [List.map_map]
  conv_lhs => rw [← List.map_id ms]
  apply List.map_congr_left
  intro x hx
  exact (mem_canonFragMsgs u f w h t s x (hms x hx)).2

theorem frag_idx_nodup (u : JStr) (f w h : Nat) (t : Int) (s : JStr)
    (ms : List VideoFrameMessage)
    (hms : ∀ x ∈ ms, x ∈ canonFragMsgs u f w h t s) (hnd : ms.Nodup) :
    (ms.map VideoFrameMessage.fragmentIndex).Nodup := by
  refine List.Nodup.map_on ?_ hnd
  intro x hx y hy hxy
  rw [(mem_canonFragMsgs u f w h t s x (hms x hx)).2,
    (mem_canonFragMsgs u f w h t s y (hms y hy)).2, hxy]

/-- Running a nonempty, incomplete batch of distinct fragments from a state
with no entry for `u`: nothing is emitted and the buffer holds exactly the
delivered chunks. -/
theorem frag_run_partial (s0 : PState) (u : JStr) (f w h : Nat) (t : Int)
    (s : JStr)
    (hme : ¬ u = s0.myUserId) (h0 : mget s0.userFrameState u = none)
    (j : Nat) (I' : List Nat)
    (hnd : (j :: I').Nodup)
    (hlen : (j :: I').length < (fragmentData s).length) :
    ∃ frags' : List (Nat × JStr),
      prun s0 (fragEvents ((j :: I').map (fun i => mkFragMsg u f w h t
        (fragmentData s).length i ((fragmentData s).getD i []))) t) =
        (fragAccumState s0 u f t (fragmentData s).length frags', []) ∧
      goodFrags s frags' (j :: I') := by
  have hnotfull : ¬ (0 : Nat) + 1 = (fragmentData s).length := by
    simp only [List.length_cons] at hlen
    omega
  have hfirst := frag_first_eq_accum s0 u f w h t (fragmentData s).length j
    ((fragmentData s).getD j []) hme h0
  have hstep := frag_step_mid s0 u f w h t (fragmentData s).length j
    ((fragmentData s).getD j []) [] hme rfl (by simpa using hnotfull)
  have hg1 : goodFrags s (mset [] j ((fragmentData s).getD j [])) [j] := by
    have := goodFrags_snoc s [] [] j (goodFrags_nil s) (by simp)
    simpa using this
  obtain ⟨frags', hrun, hgood⟩ := frag_fold_go s0 u f w h t s hme I'
    (mset [] j ((fragmentData s).getD j [])) [j]
    (List.Nodup.of_cons hnd)
    (fun i hi => by
      intro hc
      rcases List.mem_singleton.mp hc with rfl
      exact (List.nodup_cons.mp hnd).1 hi)
    hg1
    (by
      simp only [List.length_singleton, List.length_cons, List.length_nil] at hlen ⊢
      omega)
  refine ⟨frags', ?_, by simpa using hgood⟩
  simp only [List.map_cons, fragEvents, prun_cons, pstep, handleVideoMessage,
    hfirst, hstep]
  simpa [fragEvents] using hrun

/-- Delivering all `N` distinct fragments (in any order `j :: I'`) publishes
the frame exactly once, with the payload reassembled byte-for-byte. -/
theorem frag_run_complete (s0 : PState) (u : JStr) (f w h : Nat) (t : Int)
    (s : JStr)
    (hme : ¬ u = s0.myUserId) (h0 : mget s0.userFrameState u = none)
    (j : Nat) (I' : List Nat)
    (hnd : (j :: I').Nodup)
    (hlt : ∀ i ∈ j :: I', i < (fragmentData s).length)
    (hlen : (j :: I').length = (fragmentData s).length) :
    completions (prun s0 (fragEvents ((j :: I').map (fun i => mkFragMsg u f w h t
      (fragmentData s).length i ((fragmentData s).getD i []))) t)).2 =
      [(u, (f : Int), s)] := by
  rcases List.eq_nil_or_concat I' with rfl | ⟨I0, jl, hI⟩
  · -- a single fragment: it completes immediately
    have hN1 : (fragmentData s).length = 1 := by simpa using hlen.symm
    have hg : goodFrags s (mset [] j ((fragmentData s).getD j [])) [j] := by
      simpa using goodFrags_snoc s [] [] j (goodFrags_nil s) (by simp)
    have hcov : ∀ i, i < (fragmentData s).length →
        mget (mset [] j ((fragmentData s).getD j [])) i =
          some ((fragmentData s).getD i []) := by
      intro i hi
      have hmem : i ∈ [j] := nodup_lt_full [j] (fragmentData s).length
        (by simp) (by simpa using hlt) (by simpa using hlen) i hi
      rw [hg.2 i, if_pos hmem]
    have hlast := frag_step_last s0 u f w h t (fragmentData s).length j
      ((fragmentData s).getD j []) [] hme rfl (by simp [hN1])
    simp only [List.map_cons, List.map_nil, fragEvents, prun_cons, pstep,
      handleVideoMessage, prun, frag_first_eq_accum s0 u f w h t
        (fragmentData s).length j ((fragmentData s).getD j []) hme h0]
    rw [show ∀ a b : List Eff, completions (a ++ b) = completions a ++ completions b
      from fun a b => List.filterMap_append a b _]
    simp only [completions, List.filterMap_nil, List.append_nil]
    rw [show (List.filterMap _ _ : List (JStr × Int × JStr)) =
      completions (handleVideoFrame (fragAccumState s0 u f t
        (fragmentData s).length []) (mkFragMsg u f w h t
        (fragmentData s).length j ((fragmentData s).getD j [])) t).2 from rfl]
    rw [hlast, frag_payload_eq s _ hcov]
  · -- at least two fragments: accumulate, then the last one completes
    subst hI
    have hnd2 := hnd
    rw [List.concat_eq_append, ← List.cons_append, List.nodup_append] at hnd2
    obtain ⟨hnd1, _, hdisj⟩ := hnd2
    have hfreshJ : jl ∉ j :: I0 := fun hc => hdisj hc (List.mem_singleton_self jl)
    have hlen1 : (j :: I0).length < (fragmentData s).length := by
      rw [List.concat_eq_append, ← List.cons_append] at hlen
      simp only [List.length_append, List.length_cons, List.length_singleton,
        List.length_nil] at hlen ⊢
      omega
    obtain ⟨frags', hrun, hgood⟩ :=
      frag_run_partial s0 u f w h t s hme h0 j I0 hnd1 hlen1
    have hfresh : mget frags' jl = none := by
      rw [hgood.2 jl, if_neg hfreshJ]
    have hlenN : frags'.length + 1 = (fragmentData s).length := by
      rw [hgood.1]
      rw [List.concat_eq_append, ← List.cons_append] at hlen
      simp only [List.length_append, List.length_cons, List.length_singleton,
        List.length_nil] at hlen ⊢
      omega
    have hlast := frag_step_last s0 u f w h t (fragmentData s).length jl
      ((fragmentData s).getD jl []) frags' hme hfresh hlenN
    have hcov : ∀ i, i < (fragmentData s).length →
        mget (mset frags' jl ((fragmentData s).getD jl [])) i =
          some ((fragmentData s).getD i []) := by
      intro i hi
      have hg2 := goodFrags_snoc s frags' (j :: I0) jl hgood hfreshJ
      have hmem : i ∈ (j :: I0) ++ [jl] := by
        refine nodup_lt_full ((j :: I0) ++ [jl]) (fragmentData s).length ?_ ?_ ?_ i hi
        · rw [List.concat_eq_append, ← List.cons_append] at hnd
          exact hnd
        · intro a ha
          refine hlt a ?_
          rw [List.concat_eq_append, ← List.cons_append]
          exact ha
        · rw [List.concat_eq_append, ← List.cons_append] at hlen
          exact hlen
      rw [hg2.2 i, if_pos hmem]
    rw [List.concat_eq_append, ← List.cons_append]
    rw [show ((j :: I0) ++ [jl]).map (fun i => mkFragMsg u f w h t
        (fragmentData s).length i ((fragmentData s).getD i [])) =
      (j :: I0).map (fun i => mkFragMsg u f w h t
        (fragmentData s).length i ((fragmentData s).getD i [])) ++
      [mkFragMsg u f w h t (fragmentData s).length jl
        ((fragmentData s).getD jl [])] from List.map_append _ _ _]
    rw [show ∀ (a b : List VideoFrameMessage) (t' : Int),
        fragEvents (a ++ b) t' = fragEvents a t' ++ fragEvents b t'
      from fun a b t' => List.map_append _ _ _]
    rw [prun_append, hrun]
    simp only [fragEvents, List.map_cons, List.map_nil, prun_cons, pstep,
      handleVideoMessage, prun]
    rw [show ∀ a b : List Eff, completions (a ++ b) = completions a ++ completions b
      from fun a b => List.filterMap_append a b _]
    simp only [completions, List.filterMap_nil, List.nil_append, List.append_nil]
    rw [show (List.filterMap _ _ : List (JStr × Int × JStr)) =
      completions (handleVideoFrame (fragAccumState s0 u f t
        (fragmentData s).length frags') (mkFragMsg u f w h t
        (fragmentData s).length jl ((fragmentData s).getD jl [])) t).2 from rfl]
    rw [hlast, frag_payload_eq s _ hcov]

/-- C2: `fragmentData` splits any base64 keyframe payload `s` into chunks of
at most 4800 characters; delivering the resulting `video_frame` fragments to
the playback service in any order makes the frame complete exactly once —
with the last fragment, every proper prefix of the delivery producing no
completion — and the reassembled payload equals `s` byte for byte. -/
theorem C2_fragment_reassembly (s0 : PState) (u : JStr) (f w h : Nat) (t : Int)
    (s : JStr)
    (hme : ¬ u = s0.myUserId) (h0 : mget s0.userFrameState u = none)
    (perm : List VideoFrameMessage)
    (hperm : perm.Perm (canonFragMsgs u f w h t s)) :
    (∀ c ∈ fragmentData s, c.length ≤ MAX_FRAGMENT_SIZE) ∧
    completions (prun s0 (fragEvents perm t)).2 = [(u, (f : Int), s)] ∧
    (∀ pre, pre <+: perm → ¬ pre = perm →
      completions (prun s0 (fragEvents pre t)).2 = []) := by
  have hNpos : 0 < (fragmentData s).length :=
    List.length_pos.mpr (fragmentData_ne_nil s)
  have hcanonnd := canonFragMsgs_nodup u f w h t s
  have hpermnd : perm.Nodup := hperm.nodup_iff.mpr hcanonnd
  have hsub : ∀ x ∈ perm, x ∈ canonFragMsgs u f w h t s :=
    fun x hx => hperm.mem_iff.mp hx
  have hpermlen : perm.length = (fragmentData s).length := by
    rw [hperm.length_eq]
    simp [canonFragMsgs]
  refine ⟨fragmentData_len_le s, ?_, ?_⟩
  · have heq := frag_list_eq_map_idx u f w h t s perm hsub
    have hJnd := frag_idx_nodup u f w h t s perm hsub hpermnd
    have hJlt : ∀ i ∈ perm.map VideoFrameMessage.fragmentIndex,
        i < (fragmentData s).length := by
      intro i hi
      obtain ⟨x, hx, rfl⟩ := List.mem_map.mp hi
      exact (mem_canonFragMsgs u f w h t s x (hsub x hx)).1
    have hJlen : (perm.map VideoFrameMessage.fragmentIndex).length
        = (fragmentData s).length := by
      simpa using hpermlen
    cases hJ : perm.map VideoFrameMessage.fragmentIndex with
    | nil =>
      rw [hJ] at hJlen
      simp at hJlen
      omega
    | cons j I' =>
      rw [hJ] at heq hJnd hJlt hJlen
      rw [heq]
      exact frag_run_complete s0 u f w h t s hme h0 j I' hJnd hJlt hJlen
  · intro pre hpre hne
    have hsubpre : ∀ x ∈ pre, x ∈ canonFragMsgs u f w h t s :=
      fun x hx => hsub x (hpre.subset hx)
    have hndpre : pre.Nodup := hpermnd.sublist hpre.sublist
    have hlenpre : pre.length < (fragmentData s).length := by
      have h1 : pre.length ≤ perm.length := hpre.length_le
      have h2 : ¬ pre.length = perm.length :=
        fun hc => hne (hpre.sublist.eq_of_length hc)
      omega
    have heqpre := frag_list_eq_map_idx u f w h t s pre hsubpre
    cases hJ : pre.map VideoFrameMessage.fragmentIndex with
    | nil =>
      have hnil : pre = [] := List.map_eq_nil_iff.mp hJ
      rw [hnil]
      simp [prun, fragEvents, completions]
    | cons j I' =>
      rw [hJ] at heqpre
      have hndJ := frag_idx_nodup u f w h t s pre hsubpre hndpre
      rw [hJ] at hndJ
      have hlenJ : (j :: I').length < (fragmentData s).length := by
        have : (pre.map VideoFrameMessage.fragmentIndex).length = pre.length := by
          simp
        rw [hJ] at this
        omega
      rw [heqpre]
      obtain ⟨frags', hrun, _⟩ :=
        frag_run_partial s0 u f w h t s hme h0 j I' hndJ hlenJ
      rw [hrun]
      simp [completions]

def c2S : JStr := "QUJD".toList

def c2Init : PState := ⟨[], [], [], [], [], [], [], [], [], 0⟩

/-- Witness for C2 at the concrete payload "QUJD" delivered to a fresh
viewer: the frame completes exactly once with the original payload. -/
theorem C2_witness :
    completions (prun c2Init
      (fragEvents (canonFragMsgs "u".toList 7 480 270 5 c2S) 5)).2 =
      [("u".toList, (7 : Int), c2S)] :=
  (C2_fragment_reassembly c2Init "u".toList 7 480 270 5 c2S
    (by decide) rfl (canonFragMsgs "u".toList 7 480 270 5 c2S)
    (List.Perm.refl _)).2.1
